import Mathlib

/-!
Robot-arm trajectory pipeline (rwa3_starter) and the LIDAR loop of the sensor
program (rwa2_starter).

A shallow embedding of the trajectory generator, the trajectory filter and the
forward-kinematics mapper of `rwa3_starter`, together with the properties the
specification states about them, and of the obstacle-counting loop of
`rwa2_starter/src/main.cpp`.

Modelling conventions.

* `double` is modelled by an arbitrary linearly ordered field `α` (exact
  arithmetic).  Every definition is computable and can be evaluated at `α = ℚ`;
  statements that mention `π` are instantiated at `α = ℝ`.  Rounding, infinities
  and NaN are outside this model; in particular a quotient by zero (sample count
  `1`) is an IEEE non-finite value in C++, and no theorem below speaks about it.
* Where rounding decides a property, the same source lines are evaluated a second
  time in `RobotArm.Binary64`: finite binary64 numbers are rationals and every
  `double` operation is the exact operation followed by rounding to nearest, ties
  to even.
* `int` is modelled by `ℤ`.  The only `int` that is incremented is the counter
  captured by the velocity-limit lambda; its increment wraps to 32 bits.
* `std::vector<JointState>` is modelled by `List (JointState α)`.
* A `std::function` that may read and write captured variables is modelled by a
  function that takes and returns the captured state explicitly.
-/

set_option autoImplicit false

namespace RobotArm

/-! ## robot_types.hpp -/

/-- Joint state of the 2-DoF arm (`struct JointState`): two angles and two
angular velocities. -/
structure JointState (α : Type) where
  theta1 : α
  theta2 : α
  dtheta1 : α
  dtheta2 : α
  deriving DecidableEq, Repr

/-- End-effector position (`struct EndEffectorPose`). -/
structure EndEffectorPose (α : Type) where
  x : α
  y : α
  deriving DecidableEq, Repr

section Constants

variable {α : Type} [LinearOrderedField α]

/-- Length of link 1: `k_link1{0.5}`. -/
def k_link1 : α := 1 / 2

/-- Length of link 2: `k_link2{0.3}`. -/
def k_link2 : α := 3 / 10

/-- Angular velocity limit: `k_vel_limit{1.0}`. -/
def k_vel_limit : α := 1

/-- Number of trajectory points: `k_num_samples{21}`. -/
def k_num_samples : ℤ := 21

/-- Interpolation step `k_alpha_step{1.0 / (k_num_samples - 1)}`; the subtraction
is an `int` subtraction whose result is converted to `double`.  The sample count
is a parameter so that the trajectory can be studied for every count. -/
def k_alpha_step (num_samples : ℤ) : α := 1 / ((num_samples - 1 : ℤ) : α)

end Constants

/-! ## robot_control.hpp / robot_control.cpp -/

section Control

variable {α : Type} [LinearOrderedField α]

/-- The function template `interpolate_linear`: clamp `alpha`, interpolate the
angles, and set both velocities to the global finite difference. -/
def interpolate_linear (start goal : JointState α) (alpha : α) (k_num_samples : ℤ) :
    JointState α :=
  let alpha := if alpha < 0 then 0 else alpha
  let alpha := if alpha > 1 then 1 else alpha
  { theta1 := start.theta1 + alpha * (goal.theta1 - start.theta1)
    theta2 := start.theta2 + alpha * (goal.theta2 - start.theta2)
    dtheta1 := (goal.theta1 - start.theta1) / ((k_num_samples - 1 : ℤ) : α)
    dtheta2 := (goal.theta2 - start.theta2) / ((k_num_samples - 1 : ℤ) : α) }

/-- How a call of a C++ function ends: it returns a value or it is rejected
with an error (an exception or an abort). -/
inductive CallResult (β : Type) where
  | returned (value : β)
  | rejected
  deriving DecidableEq, Repr

/-- A call of `interpolate_linear` as the caller sees it.  The body has no
`throw`, no assertion and no test of `k_num_samples`, so every call returns. -/
def interpolate_linear_call (start goal : JointState α) (alpha : α) (k_num_samples : ℤ) :
    CallResult (JointState α) :=
  CallResult.returned (interpolate_linear start goal alpha k_num_samples)

/-- The function `apply_filter`: the range-for loop `for (auto &s : traj) s = filter(s);`.
The filter is a callable with captured state `σ`; the loop threads that state
through the calls in iteration order. -/
def apply_filter {σ : Type} :
    List (JointState α) → (JointState α → σ → JointState α × σ) → σ → List (JointState α) × σ
  | [], _, st => ([], st)
  | s :: rest, filter, st =>
    let r := filter s st
    let tail := apply_filter rest filter r.2
    (r.1 :: tail.1, tail.2)

/-- A callable without captured state, seen as a filter for `apply_filter`. -/
def pure_filter (f : JointState α → JointState α) : JointState α → Unit → JointState α × Unit :=
  fun s u => (f s, u)

/-- A callable instrumented with a call log: every call appends its argument to
the log before returning the value of `f`. -/
def logged_filter (f : JointState α → JointState α) :
    JointState α → List (JointState α) → JointState α × List (JointState α) :=
  fun s log => (f s, log ++ [s])

end Control

/-! ## main.cpp -/

section Main

variable {α : Type} [LinearOrderedField α]

/-- The constant `start{0.0, 0.0}` of `main`. -/
def main_start : JointState α := ⟨0, 0, 0, 0⟩

/-- The constant `goal{M_PI / 4.0, -M_PI}` of `main`; the value of `M_PI` is a
parameter. -/
def main_goal (pi : α) : JointState α := ⟨pi / 4, -pi, 0, 0⟩

/-- The generation loop of `main`:
`for (int i{0}; i < k_num_samples; ++i) traj->push_back(interpolate_linear(start, goal,
static_cast<double>(i) * k_alpha_step, k_num_samples));`
with the sample count as a parameter. -/
def main_traj (start goal : JointState α) (num_samples : ℤ) : List (JointState α) :=
  (List.range num_samples.toNat).map fun (i : ℕ) =>
    interpolate_linear start goal ((i : α) * k_alpha_step num_samples) num_samples

/-- The library function `std::clamp(v, lo, hi)`: `lo` if `v < lo`, else `hi` if `hi < v`,
else `v`. -/
def std_clamp (v lo hi : α) : α :=
  if v < lo then lo else if hi < v then hi else v

/-- Two's-complement wrap of an integer to the 32-bit `int` range. -/
def wrap_int (x : ℤ) : ℤ := (x + 2 ^ 31) % 2 ^ 32 - 2 ^ 31

/-- The lambda `velocity_limit_lambda` of `main`; the captured `filtered_count` is
passed in and returned, and the limit is a parameter (`k_vel_limit` in the program). -/
def velocity_limit_lambda (vel_limit : α) (s : JointState α) (filtered_count : ℤ) :
    JointState α × ℤ :=
  let out : JointState α :=
    { s with
      dtheta1 := std_clamp s.dtheta1 (-vel_limit) vel_limit
      dtheta2 := std_clamp s.dtheta2 (-vel_limit) vel_limit }
  if out.dtheta1 ≠ s.dtheta1 ∨ out.dtheta2 ≠ s.dtheta2 then
    (out, wrap_int (filtered_count + 1))
  else
    (out, filtered_count)

end Main

/-! ## robot_kinematics.hpp -/

section Kinematics

variable {α : Type} [LinearOrderedField α]

/-- The function template `forward_kinematics`; `std::cos` and `std::sin` are
parameters. -/
def forward_kinematics (cos sin : α → α) (s : JointState α) (L1 L2 : α) : EndEffectorPose α :=
  { x := L1 * cos s.theta1 + L2 * cos (s.theta1 + s.theta2)
    y := L1 * sin s.theta1 + L2 * sin (s.theta1 + s.theta2) }

/-- The call `forward_kinematics(state)` with the default arguments
`L1 = k_link1`, `L2 = k_link2`. -/
def forward_kinematics_default (cos sin : α → α) (s : JointState α) : EndEffectorPose α :=
  forward_kinematics cos sin s k_link1 k_link2

end Kinematics

/-! ## The same source lines evaluated in IEEE binary64 -/

namespace Binary64

/-- Auxiliary recursion for `log2`: halve `n` until it is below `2`. -/
def log2_aux : ℕ → ℕ → ℕ
  | 0, _ => 0
  | fuel + 1, n => if n < 2 then 0 else log2_aux fuel (n / 2) + 1

/-- The integer `⌊log₂ n⌋` for `n ≥ 1` (and `0` for `n = 0`). -/
def log2 (n : ℕ) : ℕ := log2_aux n n

/-- The power `2 ^ k` for an integer exponent, as a rational. -/
def pow2 (k : ℤ) : ℚ :=
  if 0 ≤ k then ((2 ^ k.toNat : ℕ) : ℚ) else 1 / ((2 ^ (-k).toNat : ℕ) : ℚ)

/-- The binary exponent of a nonzero rational: the `e` with `2 ^ e ≤ |x| < 2 ^ (e + 1)`. -/
def mag (x : ℚ) : ℤ :=
  let k : ℤ := (log2 x.num.natAbs : ℤ) - (log2 x.den : ℤ)
  if pow2 k ≤ |x| then k else k - 1

/-- The integer nearest to `y`, ties to the even integer. -/
def round_nearest_even (y : ℚ) : ℤ :=
  let f : ℤ := ⌊y⌋
  let r : ℚ := y - f
  if r < 1 / 2 then f
  else if 1 / 2 < r then f + 1
  else if f % 2 = 0 then f else f + 1

/-- Rounding of an exact result to binary64 (53-bit significand, round to nearest, ties
to even, gradual underflow below `2 ^ (-1022)`).  Finite values only: a result beyond the
binary64 range (an infinity) and NaN are not represented. -/
def round64 (x : ℚ) : ℚ :=
  if x = 0 then 0
  else
    let q := pow2 (max (mag x) (-1022) - 52)
    (round_nearest_even (x / q) : ℚ) * q

/-- The `double` sum `x + y`. -/
def add (x y : ℚ) : ℚ := round64 (x + y)

/-- The `double` product `x * y`. -/
def mul (x y : ℚ) : ℚ := round64 (x * y)

/-- The constant `k_link1{0.5}` as a `double`. -/
def k_link1_b64 : ℚ := round64 (1 / 2)

/-- The constant `k_link2{0.3}` as a `double`: the binary64 number nearest to `0.3`. -/
def k_link2_b64 : ℚ := round64 (3 / 10)

/-- The macro `M_PI` of `<cmath>`: the binary64 number nearest to `π`,
`884279719003555 · 2⁻⁴⁸`. -/
def M_PI : ℚ := 884279719003555 / 281474976710656

/-- The function template `forward_kinematics` with every `double` operation rounded;
`std::cos` and `std::sin` are parameters. -/
def forward_kinematics_b64 (cos sin : ℚ → ℚ) (s : JointState ℚ) (L1 L2 : ℚ) :
    EndEffectorPose ℚ :=
  { x := add (mul L1 (cos s.theta1)) (mul L2 (cos (add s.theta1 s.theta2)))
    y := add (mul L1 (sin s.theta1)) (mul L2 (sin (add s.theta1 s.theta2))) }

end Binary64

end RobotArm

namespace SensorSystem

/-! ## rwa2_starter: main.cpp, LIDAR processing -/

section Lidar

variable {α : Type} [LinearOrderedField α]

/-- The variables of `main` that the LIDAR loop writes for the current timestamp:
`double obstacles_detected` and `std::string lidar_status`. -/
structure LidarState (α : Type) where
  obstacles_detected : α
  lidar_status : String
  deriving DecidableEq, Repr

/-- One pass through the body of
`for (const auto& lidar_reading : data.lidar_readings)`, console output left out:
`if (lidar_reading <= obstacle_threshold) {obstacles_detected++;}` and
`if (lidar_reading < lidar_min_valid) {lidar_status = "POOR";}`.
The constants `obstacle_threshold` and `lidar_min_valid` of `sensor_types.hpp` are
parameters. -/
def lidar_step (obstacle_threshold lidar_min_valid : α) (st : LidarState α)
    (lidar_reading : α) : LidarState α :=
  let st : LidarState α :=
    if lidar_reading ≤ obstacle_threshold then
      { st with obstacles_detected := st.obstacles_detected + 1 }
    else st
  if lidar_reading < lidar_min_valid then { st with lidar_status := "POOR" } else st

/-- The LIDAR part of one pass of the data processing loop: the reset
`obstacles_detected = 0; lidar_status = "GOOD";` followed by the loop over
`data.lidar_readings`. -/
def process_lidar (obstacle_threshold lidar_min_valid : α) (lidar_readings : List α) :
    LidarState α :=
  lidar_readings.foldl (lidar_step obstacle_threshold lidar_min_valid) ⟨0, "GOOD"⟩

end Lidar

end SensorSystem

namespace RobotArm

/-! ## Auxiliary lemmas: interpolation -/

section InterpolationLemmas

variable {α : Type} [LinearOrderedField α]

theorem cast_pred_pos (N : ℤ) (hN : 2 ≤ N) : (0 : α) < ((N - 1 : ℤ) : α) := by
  have h : (0 : ℤ) < N - 1 := by omega
  exact_mod_cast h

theorem alpha_nonneg (N : ℤ) (i : ℕ) (hN : 2 ≤ N) : (0 : α) ≤ (i : α) * k_alpha_step N := by
  unfold k_alpha_step
  have hm : (0 : α) < ((N - 1 : ℤ) : α) := cast_pred_pos N hN
  positivity

theorem alpha_le_one (N : ℤ) (i : ℕ) (hN : 2 ≤ N) (hi : (i : ℤ) ≤ N - 1) :
    (i : α) * k_alpha_step N ≤ 1 := by
  unfold k_alpha_step
  have hm : (0 : α) < ((N - 1 : ℤ) : α) := cast_pred_pos N hN
  have hle : (i : α) ≤ ((N - 1 : ℤ) : α) := by exact_mod_cast hi
  rw [mul_one_div, div_le_one hm]
  exact hle

theorem interpolate_linear_unit (start goal : JointState α) (a : α) (N : ℤ)
    (h0 : 0 ≤ a) (h1 : a ≤ 1) :
    interpolate_linear start goal a N =
      { theta1 := start.theta1 + a * (goal.theta1 - start.theta1)
        theta2 := start.theta2 + a * (goal.theta2 - start.theta2)
        dtheta1 := (goal.theta1 - start.theta1) / ((N - 1 : ℤ) : α)
        dtheta2 := (goal.theta2 - start.theta2) / ((N - 1 : ℤ) : α) } := by
  unfold interpolate_linear
  simp only [not_lt.mpr h0, if_false, gt_iff_lt, not_lt.mpr h1]

theorem clamp_alpha_eq (alpha : α) :
    (if (if alpha < 0 then 0 else alpha) > 1 then 1 else if alpha < 0 then 0 else alpha)
      = min (max alpha 0) 1 := by
  by_cases h0 : alpha < 0
  · have h01 : ¬ ((0 : α) > 1) := not_lt.mpr zero_le_one
    rw [if_pos h0, if_neg h01, max_eq_right h0.le, min_eq_left zero_le_one]
  · have h0' : 0 ≤ alpha := not_lt.mp h0
    rw [if_neg h0, max_eq_left h0']
    by_cases h1 : alpha > 1
    · rw [if_pos h1, min_eq_right h1.le]
    · rw [if_neg h1, min_eq_left (not_lt.mp h1)]

theorem interpolate_linear_min_max (start goal : JointState α) (alpha : α) (N : ℤ) :
    interpolate_linear start goal alpha N =
      { theta1 := start.theta1 + min (max alpha 0) 1 * (goal.theta1 - start.theta1)
        theta2 := start.theta2 + min (max alpha 0) 1 * (goal.theta2 - start.theta2)
        dtheta1 := (goal.theta1 - start.theta1) / ((N - 1 : ℤ) : α)
        dtheta2 := (goal.theta2 - start.theta2) / ((N - 1 : ℤ) : α) } := by
  simp only [interpolate_linear]
  rw [clamp_alpha_eq]

theorem main_traj_length (start goal : JointState α) (N : ℤ) :
    (main_traj start goal N).length = N.toNat := by
  unfold main_traj
  rw [List.length_map, List.length_range]

theorem main_traj_getElem? (start goal : JointState α) (N : ℤ) (i : ℕ) (hi : i < N.toNat) :
    (main_traj start goal N)[i]? =
      some (interpolate_linear start goal ((i : α) * k_alpha_step N) N) := by
  unfold main_traj
  rw [List.getElem?_map, List.getElem?_range hi]
  rfl

theorem interpolate_linear_dtheta (start goal : JointState α) (a : α) (N : ℤ) :
    (interpolate_linear start goal a N).dtheta1
        = (goal.theta1 - start.theta1) / ((N : α) - 1) ∧
      (interpolate_linear start goal a N).dtheta2
        = (goal.theta2 - start.theta2) / ((N : α) - 1) := by
  have hden : ((N - 1 : ℤ) : α) = (N : α) - 1 := by push_cast; rfl
  unfold interpolate_linear
  simp only [hden, and_self]

theorem main_traj_mem_dtheta (start goal : JointState α) (N : ℤ) (s : JointState α)
    (hs : s ∈ main_traj start goal N) :
    s.dtheta1 = (goal.theta1 - start.theta1) / ((N : α) - 1) ∧
      s.dtheta2 = (goal.theta2 - start.theta2) / ((N : α) - 1) := by
  unfold main_traj at hs
  obtain ⟨i, -, rfl⟩ := List.mem_map.mp hs
  exact interpolate_linear_dtheta start goal _ N

end InterpolationLemmas

/-! ## Auxiliary lemmas: binary64 constants -/

section Binary64Lemmas

/-- The rational `Binary64.M_PI` is a binary64 number and lies within half a unit in the
last place (`2⁻⁵²`) of `π`, so it is the value of the macro `M_PI`. -/
theorem M_PI_nearest_pi :
    Binary64.round64 Binary64.M_PI = Binary64.M_PI ∧
    |((Binary64.M_PI : ℚ) : ℝ) - Real.pi| < 1 / 2 ^ 52 := by
  refine ⟨by decide!, ?_⟩
  have hlo := Real.pi_gt_d20
  have hhi := Real.pi_lt_d20
  unfold Binary64.M_PI
  rw [abs_lt]
  push_cast
  constructor
  · norm_num at hhi ⊢
    linarith
  · norm_num at hlo ⊢
    linarith

end Binary64Lemmas

/-! ## Auxiliary lemmas: filtering -/

section FilterLemmas

variable {α : Type}

theorem apply_filter_fst {σ : Type} (filter : JointState α → σ → JointState α × σ)
    (f : JointState α → JointState α) (hf : ∀ s st, (filter s st).1 = f s)
    (traj : List (JointState α)) (st : σ) :
    (apply_filter traj filter st).1 = traj.map f := by
  induction traj generalizing st with
  | nil => rfl
  | cons s rest ih =>
    simp only [apply_filter, List.map_cons]
    rw [hf s st, ih]

theorem apply_filter_logged (f : JointState α → JointState α) (traj log : List (JointState α)) :
    apply_filter traj (logged_filter f) log = (traj.map f, log ++ traj) := by
  induction traj generalizing log with
  | nil => simp [apply_filter]
  | cons s rest ih =>
    simp only [apply_filter, List.map_cons]
    rw [ih]
    simp [logged_filter]

variable [LinearOrderedField α]

theorem std_clamp_ne_iff (v L : α) : std_clamp v (-L) L ≠ v ↔ L < |v| := by
  unfold std_clamp
  by_cases h1 : v < -L
  · rw [if_pos h1]
    constructor
    · intro _
      exact lt_of_lt_of_le (lt_neg_of_lt_neg h1) (neg_le_abs v)
    · intro _
      exact h1.ne.symm
  · rw [if_neg h1]
    by_cases h2 : L < v
    · rw [if_pos h2]
      constructor
      · intro _
        exact lt_of_lt_of_le h2 (le_abs_self v)
      · intro _
        exact h2.ne
    · rw [if_neg h2]
      constructor
      · intro h
        exact absurd rfl h
      · intro h
        have hle : |v| ≤ L := abs_le.mpr ⟨not_lt.mp h1, not_lt.mp h2⟩
        exact absurd h (not_lt.mpr hle)

theorem abs_std_clamp_le (v L : α) (hL : 0 ≤ L) : |std_clamp v (-L) L| ≤ L := by
  unfold std_clamp
  by_cases h1 : v < -L
  · rw [if_pos h1, abs_neg, abs_of_nonneg hL]
  · rw [if_neg h1]
    by_cases h2 : L < v
    · rw [if_pos h2, abs_of_nonneg hL]
    · rw [if_neg h2]
      exact abs_le.mpr ⟨not_lt.mp h1, not_lt.mp h2⟩

theorem velocity_limit_lambda_fst (L : α) (s : JointState α) (c : ℤ) :
    (velocity_limit_lambda L s c).1 =
      { s with
        dtheta1 := std_clamp s.dtheta1 (-L) L
        dtheta2 := std_clamp s.dtheta2 (-L) L } := by
  dsimp only [velocity_limit_lambda]
  split <;> rfl

theorem velocity_limit_lambda_snd (L : α) (s : JointState α) (c : ℤ) :
    (velocity_limit_lambda L s c).2 =
      if L < |s.dtheta1| ∨ L < |s.dtheta2| then wrap_int (c + 1) else c := by
  dsimp only [velocity_limit_lambda]
  simp only [std_clamp_ne_iff]
  split <;> rfl

theorem wrap_int_of_range (x : ℤ) (h0 : 0 ≤ x) (h1 : x < 2 ^ 31) : wrap_int x = x := by
  unfold wrap_int
  omega

theorem std_clamp_of_abs_le (v L : α) (h : |v| ≤ L) : std_clamp v (-L) L = v :=
  not_not.mp ((std_clamp_ne_iff v L).not.mpr (not_lt.mpr h))

theorem velocity_limit_lambda_within (L : α) (s : JointState α) (c : ℤ)
    (h1 : |s.dtheta1| ≤ L) (h2 : |s.dtheta2| ≤ L) :
    velocity_limit_lambda L s c = (s, c) := by
  apply Prod.ext
  · rw [velocity_limit_lambda_fst, std_clamp_of_abs_le _ _ h1, std_clamp_of_abs_le _ _ h2]
  · rw [velocity_limit_lambda_snd, if_neg]
    rintro (h | h)
    · exact absurd h (not_lt.mpr h1)
    · exact absurd h (not_lt.mpr h2)

theorem apply_filter_velocity_within (L : α) (traj : List (JointState α)) (c : ℤ)
    (h : ∀ s ∈ traj, |s.dtheta1| ≤ L ∧ |s.dtheta2| ≤ L) :
    apply_filter traj (velocity_limit_lambda L) c = (traj, c) := by
  induction traj with
  | nil => rfl
  | cons s rest ih =>
    have hs := h s (List.mem_cons_self s rest)
    have hrest : ∀ t ∈ rest, |t.dtheta1| ≤ L ∧ |t.dtheta2| ≤ L :=
      fun t ht => h t (List.mem_cons_of_mem s ht)
    simp only [apply_filter]
    rw [velocity_limit_lambda_within L s c hs.1 hs.2, ih hrest]

theorem apply_filter_velocity_count (L : α) (traj : List (JointState α)) (c : ℤ)
    (h0 : 0 ≤ c) (h1 : c + traj.length < 2 ^ 31) :
    (apply_filter traj (velocity_limit_lambda L) c).2 =
      c + (traj.countP fun s => decide (L < |s.dtheta1| ∨ L < |s.dtheta2|) : ℕ) := by
  induction traj generalizing c with
  | nil => simp [apply_filter]
  | cons s rest ih =>
    simp only [apply_filter, velocity_limit_lambda_snd]
    simp only [List.length_cons, Nat.cast_add, Nat.cast_one] at h1
    by_cases hex : L < |s.dtheta1| ∨ L < |s.dtheta2|
    · rw [if_pos hex, wrap_int_of_range (c + 1) (by omega) (by omega),
        ih (c + 1) (by omega) (by omega),
        List.countP_cons_of_pos _ _ (by simpa using hex)]
      push_cast
      ring
    · rw [if_neg hex, ih c h0 (by omega),
        List.countP_cons_of_neg _ _ (by simpa using hex)]

theorem main_traj_program_dtheta (pi : α) (h0 : 0 ≤ pi) (h1 : pi < 20) (s : JointState α)
    (hs : s ∈ main_traj main_start (main_goal pi) k_num_samples) :
    (s.dtheta1 = pi / 4 / 20 ∧ s.dtheta2 = -pi / 20) ∧
      |s.dtheta1| < k_vel_limit ∧ |s.dtheta2| < k_vel_limit := by
  obtain ⟨e1, e2⟩ := main_traj_mem_dtheta main_start (main_goal pi) k_num_samples s hs
  have d1 : s.dtheta1 = pi / 4 / 20 := by
    rw [e1]; simp only [main_start, main_goal, k_num_samples]; norm_num
  have d2 : s.dtheta2 = -pi / 20 := by
    rw [e2]; simp only [main_start, main_goal, k_num_samples]; norm_num
  refine ⟨⟨d1, d2⟩, ?_, ?_⟩
  · rw [d1, abs_lt]
    unfold k_vel_limit
    constructor <;> linarith
  · rw [d2, abs_lt]
    unfold k_vel_limit
    constructor <;> linarith

end FilterLemmas

/-! ## Trajectory generator -/

section Generator

variable {α : Type} [LinearOrderedField α]

/-- C1: for a sample count `N ≥ 2` and an index `0 ≤ i ≤ N - 1`, sample `i` of the
trajectory built by the loop of `main` is `interpolate_linear start goal (i * (1/(N-1))) N`,
its angles are `start + (i/(N-1)) * (goal - start)`, and the interpolation parameter
already lies in `[0, 1]`, so the clamp leaves it as it is. -/
theorem main_traj_sample_angles (start goal : JointState α) (N : ℤ) (i : ℕ)
    (hN : 2 ≤ N) (hi : (i : ℤ) ≤ N - 1) :
    ∃ s, (main_traj start goal N)[i]? = some s ∧
      s = interpolate_linear start goal ((i : α) * (1 / ((N : α) - 1))) N ∧
      s.theta1 = start.theta1 + ((i : α) / ((N : α) - 1)) * (goal.theta1 - start.theta1) ∧
      s.theta2 = start.theta2 + ((i : α) / ((N : α) - 1)) * (goal.theta2 - start.theta2) ∧
      0 ≤ (i : α) * (1 / ((N : α) - 1)) ∧ (i : α) * (1 / ((N : α) - 1)) ≤ 1 := by
  have hlt : i < N.toNat := by omega
  have hstep : (k_alpha_step N : α) = 1 / ((N : α) - 1) := by
    unfold k_alpha_step
    push_cast
    rfl
  have h0 : (0 : α) ≤ (i : α) * k_alpha_step N := alpha_nonneg N i hN
  have h1 : (i : α) * k_alpha_step N ≤ 1 := alpha_le_one N i hN hi
  refine ⟨_, main_traj_getElem? start goal N i hlt, ?_, ?_, ?_, ?_, ?_⟩
  · rw [hstep]
  · rw [interpolate_linear_unit start goal _ N h0 h1, hstep, mul_one_div]
  · rw [interpolate_linear_unit start goal _ N h0 h1, hstep, mul_one_div]
  · rw [← hstep]; exact h0
  · rw [← hstep]; exact h1

/-- Witness for C1: three samples from `(0, 0)` to `(1, -4)`, middle sample. -/
theorem main_traj_sample_angles_witness :
    (2 : ℤ) ≤ 3 ∧ ((1 : ℕ) : ℤ) ≤ 3 - 1 ∧
    ∃ s : JointState ℚ,
      (main_traj (⟨0, 0, 0, 0⟩ : JointState ℚ) ⟨1, -4, 0, 0⟩ 3)[1]? = some s ∧
      s.theta1 = 1 / 2 ∧ s.theta2 = -2 := by
  refine ⟨by decide, by decide, ?_⟩
  obtain ⟨s, hs, -, h1, h2, -⟩ :=
    main_traj_sample_angles (⟨0, 0, 0, 0⟩ : JointState ℚ) ⟨1, -4, 0, 0⟩ 3 1
      (by decide) (by decide)
  refine ⟨s, hs, ?_, ?_⟩
  · rw [h1]; norm_num
  · rw [h2]; norm_num

/-- C3: for `N ≥ 2` and every `alpha`, `interpolate_linear` sets the velocities to
`(goal - start) / (N - 1)` component-wise; the value is the same whatever `alpha` and
whatever the velocity fields of `start` and `goal`, and every sample of the trajectory
built by `main` carries it. -/
theorem interpolate_linear_velocity (start goal : JointState α) (alpha : α) (N : ℤ)
    (_hN : 2 ≤ N) :
    ((interpolate_linear start goal alpha N).dtheta1
        = (goal.theta1 - start.theta1) / ((N : α) - 1) ∧
      (interpolate_linear start goal alpha N).dtheta2
        = (goal.theta2 - start.theta2) / ((N : α) - 1)) ∧
    (∀ (alpha' v1 v2 w1 w2 : α),
      (interpolate_linear ⟨start.theta1, start.theta2, v1, v2⟩
          ⟨goal.theta1, goal.theta2, w1, w2⟩ alpha' N).dtheta1
        = (interpolate_linear start goal alpha N).dtheta1 ∧
      (interpolate_linear ⟨start.theta1, start.theta2, v1, v2⟩
          ⟨goal.theta1, goal.theta2, w1, w2⟩ alpha' N).dtheta2
        = (interpolate_linear start goal alpha N).dtheta2) ∧
    (main_traj start goal N).length = N.toNat ∧
    (∀ s ∈ main_traj start goal N,
      s.dtheta1 = (goal.theta1 - start.theta1) / ((N : α) - 1) ∧
      s.dtheta2 = (goal.theta2 - start.theta2) / ((N : α) - 1)) := by
  refine ⟨interpolate_linear_dtheta start goal alpha N, ?_, main_traj_length start goal N,
    main_traj_mem_dtheta start goal N⟩
  intro alpha' v1 v2 w1 w2
  exact ⟨rfl, rfl⟩

/-- Witness for C3: `start = (0, 0)`, `goal = (π/4, -π)`, `N = 21`; every sample has
velocities `((π/4)/20, -π/20)`. -/
theorem interpolate_linear_velocity_witness :
    (2 : ℤ) ≤ 21 ∧
    ∀ s ∈ main_traj (main_start : JointState ℝ) (main_goal Real.pi) 21,
      s.dtheta1 = (Real.pi / 4) / 20 ∧ s.dtheta2 = -Real.pi / 20 := by
  refine ⟨by decide, ?_⟩
  intro s hs
  obtain ⟨h1, h2⟩ :=
    (interpolate_linear_velocity (main_start : JointState ℝ) (main_goal Real.pi) 0 21
      (by decide)).2.2.2 s hs
  constructor
  · rw [h1]; simp only [main_start, main_goal]; norm_num
  · rw [h2]; simp only [main_start, main_goal]; norm_num

/-- C4, as stated, fails: with sample count `1` the call from `(0, 0)` to `(1, -4)` at
`alpha = 1/2` is not rejected; it returns a joint state with angles `(1/2, -2)`. -/
theorem interpolate_linear_one_sample_returns :
    interpolate_linear_call (⟨0, 0, 0, 0⟩ : JointState ℚ) ⟨1, -4, 0, 0⟩ (1 / 2) 1
        ≠ CallResult.rejected ∧
    ∃ s : JointState ℚ,
      interpolate_linear_call (⟨0, 0, 0, 0⟩ : JointState ℚ) ⟨1, -4, 0, 0⟩ (1 / 2) 1
        = CallResult.returned s ∧ s.theta1 = 1 / 2 ∧ s.theta2 = -2 := by
  refine ⟨fun h => (by cases h), _, rfl, ?_, ?_⟩
  · simp only [interpolate_linear]; norm_num
  · simp only [interpolate_linear]; norm_num

/-- C4, amended: `interpolate_linear` does not validate the sample count.  For every
sample count, `1` and counts below `2` included, the call returns a joint state and
never an error, and the angles of that state are `start + a * (goal - start)` with
`a` the value of `alpha` clamped to `[0, 1]`. -/
theorem interpolate_linear_never_rejects (start goal : JointState α) (alpha : α) (N : ℤ) :
    interpolate_linear_call start goal alpha N ≠ CallResult.rejected ∧
    ∃ s, interpolate_linear_call start goal alpha N = CallResult.returned s ∧
      s.theta1 = start.theta1 + min (max alpha 0) 1 * (goal.theta1 - start.theta1) ∧
      s.theta2 = start.theta2 + min (max alpha 0) 1 * (goal.theta2 - start.theta2) := by
  refine ⟨fun h => (by cases h), _, rfl, ?_, ?_⟩
  · rw [interpolate_linear_min_max]
  · rw [interpolate_linear_min_max]

/-- C12: for `N ≥ 2` and `0 ≤ i < N - 1`, the angles of samples `i` and `i + 1` of the
trajectory built by the loop of `main` differ by the velocity stored in sample `i`:
`sample[i+1].theta1 - sample[i].theta1 = sample[i].dtheta1`, and likewise for joint 2. -/
theorem main_traj_adjacent_difference (start goal : JointState α) (N : ℤ) (i : ℕ)
    (hN : 2 ≤ N) (hi : (i : ℤ) < N - 1) :
    ∃ s t, (main_traj start goal N)[i]? = some s ∧
      (main_traj start goal N)[i + 1]? = some t ∧
      t.theta1 - s.theta1 = s.dtheta1 ∧ t.theta2 - s.theta2 = s.dtheta2 := by
  have hm : (0 : α) < ((N - 1 : ℤ) : α) := cast_pred_pos N hN
  have hne : ((N - 1 : ℤ) : α) ≠ 0 := hm.ne.symm
  have hi' : (i : ℤ) ≤ N - 1 := by omega
  have hi1 : ((i + 1 : ℕ) : ℤ) ≤ N - 1 := by push_cast; omega
  refine ⟨_, _, main_traj_getElem? start goal N i (by omega),
    main_traj_getElem? start goal N (i + 1) (by omega), ?_, ?_⟩
  · rw [interpolate_linear_unit start goal _ N (alpha_nonneg N i hN) (alpha_le_one N i hN hi'),
      interpolate_linear_unit start goal _ N (alpha_nonneg N (i + 1) hN)
        (alpha_le_one N (i + 1) hN hi1)]
    simp only [k_alpha_step]
    push_cast
    field_simp
    ring
  · rw [interpolate_linear_unit start goal _ N (alpha_nonneg N i hN) (alpha_le_one N i hN hi'),
      interpolate_linear_unit start goal _ N (alpha_nonneg N (i + 1) hN)
        (alpha_le_one N (i + 1) hN hi1)]
    simp only [k_alpha_step]
    push_cast
    field_simp
    ring

/-- Witness for C12: three samples from `(0, 0)` to `(1, -4)`, samples `1` and `2`. -/
theorem main_traj_adjacent_difference_witness :
    (2 : ℤ) ≤ 3 ∧ ((1 : ℕ) : ℤ) < 3 - 1 ∧
    ∃ s t : JointState ℚ,
      (main_traj (⟨0, 0, 0, 0⟩ : JointState ℚ) ⟨1, -4, 0, 0⟩ 3)[1]? = some s ∧
      (main_traj (⟨0, 0, 0, 0⟩ : JointState ℚ) ⟨1, -4, 0, 0⟩ 3)[2]? = some t ∧
      t.theta1 - s.theta1 = s.dtheta1 ∧ t.theta2 - s.theta2 = s.dtheta2 :=
  ⟨by decide, by decide,
    main_traj_adjacent_difference (⟨0, 0, 0, 0⟩ : JointState ℚ) ⟨1, -4, 0, 0⟩ 3 1
      (by decide) (by decide)⟩

end Generator

/-! ## Trajectory filter -/

section Filter

variable {α : Type}

/-- C5: for every trajectory and every `f`, `apply_filter` leaves the element-wise image
of the trajectory under `f`: same length, entry `i` is `f` of the old entry `i`, and the
log of the calls of `f` is the old trajectory itself, so `f` is called once per element
in index order. -/
theorem apply_filter_elementwise (traj : List (JointState α)) (f : JointState α → JointState α) :
    (apply_filter traj (pure_filter f) ()).1 = traj.map f ∧
    (apply_filter traj (pure_filter f) ()).1.length = traj.length ∧
    (∀ i : ℕ, (apply_filter traj (pure_filter f) ()).1[i]? = (traj[i]?).map f) ∧
    apply_filter traj (logged_filter f) [] = (traj.map f, traj) := by
  have hmap : (apply_filter traj (pure_filter f) ()).1 = traj.map f :=
    apply_filter_fst (pure_filter f) f (fun _ _ => rfl) traj ()
  refine ⟨hmap, ?_, ?_, ?_⟩
  · rw [hmap, List.length_map]
  · intro i
    rw [hmap, List.getElem?_map]
  · rw [apply_filter_logged, List.nil_append]

variable [LinearOrderedField α]

/-- C6: for every trajectory and every limit `L ≥ 0`, after `apply_filter` with the
velocity-limit lambda every sample has `|dtheta1| ≤ L` and `|dtheta2| ≤ L`; the
trajectory keeps its length. -/
theorem velocity_limit_bounds (traj : List (JointState α)) (L : α) (filtered_count : ℤ)
    (hL : 0 ≤ L) :
    (apply_filter traj (velocity_limit_lambda L) filtered_count).1.length = traj.length ∧
    ∀ s ∈ (apply_filter traj (velocity_limit_lambda L) filtered_count).1,
      |s.dtheta1| ≤ L ∧ |s.dtheta2| ≤ L := by
  have hmap := apply_filter_fst (velocity_limit_lambda L)
    (fun s => { s with
      dtheta1 := std_clamp s.dtheta1 (-L) L
      dtheta2 := std_clamp s.dtheta2 (-L) L })
    (velocity_limit_lambda_fst L) traj filtered_count
  rw [hmap]
  refine ⟨List.length_map _ _, ?_⟩
  intro s hs
  obtain ⟨t, -, rfl⟩ := List.mem_map.mp hs
  exact ⟨abs_std_clamp_le _ L hL, abs_std_clamp_le _ L hL⟩

/-- Witness for C6: limit `1` (the value of `k_vel_limit`), a trajectory with one sample
above the limit in both components and one sample on the limit. -/
theorem velocity_limit_bounds_witness :
    (0 : ℚ) ≤ k_vel_limit ∧
    ∀ s ∈ (apply_filter ([⟨0, 0, 3, -5 / 2⟩, ⟨1, 2, 1 / 2, -1⟩] : List (JointState ℚ))
        (velocity_limit_lambda k_vel_limit) 0).1,
      |s.dtheta1| ≤ k_vel_limit ∧ |s.dtheta2| ≤ k_vel_limit :=
  ⟨zero_le_one, (velocity_limit_bounds _ k_vel_limit 0 zero_le_one).2⟩

/-- C7: for every trajectory (shorter than `2 ^ 31` samples, the range of the `int`
counter) and every limit `L ≥ 0`, starting from `filtered_count = 0` the counter after
`apply_filter` with the velocity-limit lambda is the number of raw samples with
`|dtheta1| > L` or `|dtheta2| > L`.  A sample above the limit in both components adds
one, and a sample whose components are exactly `L` and `-L` adds nothing. -/
theorem velocity_limit_count (traj : List (JointState α)) (L : α)
    (hL : 0 ≤ L) (hlen : traj.length < 2 ^ 31) :
    (apply_filter traj (velocity_limit_lambda L) 0).2 =
      (traj.countP fun s => decide (L < |s.dtheta1| ∨ L < |s.dtheta2|) : ℕ) ∧
    (∀ s : JointState α, L < |s.dtheta1| → L < |s.dtheta2| →
      (apply_filter [s] (velocity_limit_lambda L) 0).2 = 1) ∧
    (∀ t1 t2 : α,
      (apply_filter [⟨t1, t2, L, -L⟩] (velocity_limit_lambda L) 0).2 = 0 ∧
      (apply_filter [⟨t1, t2, -L, L⟩] (velocity_limit_lambda L) 0).2 = 0) := by
  refine ⟨?_, ?_, ?_⟩
  · have h1 : (0 : ℤ) + (traj.length : ℤ) < 2 ^ 31 := by
      rw [zero_add]
      exact_mod_cast hlen
    rw [apply_filter_velocity_count L traj 0 le_rfl h1, zero_add]
  · intro s h1 h2
    simp only [apply_filter, velocity_limit_lambda_snd]
    rw [if_pos (Or.inl h1)]
    rfl
  · intro t1 t2
    have habs : |L| ≤ L := (abs_of_nonneg hL).le
    have hneg : |-L| ≤ L := by rw [abs_neg]; exact habs
    constructor
    · rw [apply_filter_velocity_within L _ 0]
      intro s hs
      rw [List.mem_singleton.mp hs]
      exact ⟨habs, hneg⟩
    · rw [apply_filter_velocity_within L _ 0]
      intro s hs
      rw [List.mem_singleton.mp hs]
      exact ⟨hneg, habs⟩

/-- Witness for C7: limit `1`; of the four samples the first exceeds the limit in both
components, the second lies on the limit, the third exceeds it in one component and the
fourth is inside: the counter ends at `2`. -/
theorem velocity_limit_count_witness :
    (0 : ℚ) ≤ 1 ∧
    ([⟨0, 0, 3, -5 / 2⟩, ⟨0, 0, 1, -1⟩, ⟨0, 0, 0, 2⟩, ⟨0, 0, 1 / 2, 0⟩]
      : List (JointState ℚ)).length < 2 ^ 31 ∧
    (apply_filter ([⟨0, 0, 3, -5 / 2⟩, ⟨0, 0, 1, -1⟩, ⟨0, 0, 0, 2⟩, ⟨0, 0, 1 / 2, 0⟩]
      : List (JointState ℚ)) (velocity_limit_lambda 1) 0).2 = 2 := by
  refine ⟨zero_le_one, by decide, ?_⟩
  rw [(velocity_limit_count _ (1 : ℚ) zero_le_one (by decide)).1]
  have hhalf : |(1 / 2 : ℚ)| = 1 / 2 := abs_of_nonneg (by norm_num)
  norm_num [List.countP_cons, hhalf]

/-- C10: for the configuration compiled into the program (`start = (0, 0)`,
`goal = (π/4, -π)`, `k_num_samples = 21`, `k_vel_limit = 1`) the trajectory has 21
samples, each with velocities `(π/4)/20` and `-π/20`, both of absolute value strictly
below `1` (the first lies between `0.0392` and `0.0394`); `apply_filter` with the
velocity-limit lambda returns the trajectory unchanged and leaves `filtered_count` at
`0`. -/
theorem main_no_clamping :
    (main_traj (main_start : JointState ℝ) (main_goal Real.pi) k_num_samples).length = 21 ∧
    (∀ s ∈ main_traj (main_start : JointState ℝ) (main_goal Real.pi) k_num_samples,
      (s.dtheta1 = Real.pi / 4 / 20 ∧ s.dtheta2 = -Real.pi / 20) ∧
      |s.dtheta1| < k_vel_limit ∧ |s.dtheta2| < k_vel_limit) ∧
    (|Real.pi / 4 / 20| < (1 : ℝ) ∧ |-Real.pi / 20| < (1 : ℝ)) ∧
    ((0.0392 : ℝ) < Real.pi / 4 / 20 ∧ Real.pi / 4 / 20 < (0.0394 : ℝ)) ∧
    apply_filter (main_traj (main_start : JointState ℝ) (main_goal Real.pi) k_num_samples)
        (velocity_limit_lambda k_vel_limit) 0
      = (main_traj main_start (main_goal Real.pi) k_num_samples, 0) := by
  have hpos : (0 : ℝ) ≤ Real.pi := Real.pi_pos.le
  have hlt : Real.pi < 20 := lt_of_le_of_lt Real.pi_le_four (by norm_num)
  have hmem := main_traj_program_dtheta Real.pi hpos hlt
  refine ⟨?_, hmem, ⟨?_, ?_⟩, ⟨?_, ?_⟩, ?_⟩
  · rw [main_traj_length]
    rfl
  · rw [abs_lt]
    constructor <;> linarith
  · rw [abs_lt]
    constructor <;> linarith
  · have h := Real.pi_gt_d2
    norm_num at h ⊢
    linarith
  · have h := Real.pi_lt_d2
    norm_num at h ⊢
    linarith
  · apply apply_filter_velocity_within
    intro s hs
    exact ⟨(hmem s hs).2.1.le, (hmem s hs).2.2.le⟩

end Filter

/-! ## Forward kinematics -/

section ForwardKinematics

/-- C8: with the real cosine and sine, `forward_kinematics s L1 L2` is the pose
`x = L1 cos θ1 + L2 cos (θ1 + θ2)`, `y = L1 sin θ1 + L2 sin (θ1 + θ2)`; it does not
depend on the velocity fields of `s`; the default link lengths are `0.5` and `0.3`; and
with the defaults the state `θ1 = 0`, `θ2 = 0` is mapped to the pose `(0.8, 0)`. -/
theorem forward_kinematics_pose (s : JointState ℝ) (L1 L2 : ℝ) :
    forward_kinematics Real.cos Real.sin s L1 L2 =
      { x := L1 * Real.cos s.theta1 + L2 * Real.cos (s.theta1 + s.theta2)
        y := L1 * Real.sin s.theta1 + L2 * Real.sin (s.theta1 + s.theta2) } ∧
    (∀ v1 v2 : ℝ,
      forward_kinematics Real.cos Real.sin ⟨s.theta1, s.theta2, v1, v2⟩ L1 L2
        = forward_kinematics Real.cos Real.sin s L1 L2) ∧
    forward_kinematics_default Real.cos Real.sin s
      = forward_kinematics Real.cos Real.sin s 0.5 0.3 ∧
    (∀ v1 v2 : ℝ,
      forward_kinematics_default Real.cos Real.sin ⟨0, 0, v1, v2⟩ = { x := 0.8, y := 0.0 }) := by
  refine ⟨rfl, fun _ _ => rfl, ?_, ?_⟩
  · unfold forward_kinematics_default k_link1 k_link2
    norm_num
  · intro v1 v2
    simp only [forward_kinematics_default, forward_kinematics, k_link1, k_link2]
    norm_num

/-- The squared distance of the end effector from the base depends on `θ2` only:
`x² + y² = L1² + L2² + 2 L1 L2 cos θ2`. -/
theorem forward_kinematics_sq_dist (s : JointState ℝ) (L1 L2 : ℝ) :
    (forward_kinematics Real.cos Real.sin s L1 L2).x ^ 2
        + (forward_kinematics Real.cos Real.sin s L1 L2).y ^ 2
      = L1 ^ 2 + L2 ^ 2 + 2 * L1 * L2 * Real.cos s.theta2 := by
  have hc1 := Real.cos_sq_add_sin_sq s.theta1
  have hc2 := Real.cos_sq_add_sin_sq (s.theta1 + s.theta2)
  have hsub : Real.cos s.theta2
      = Real.cos (s.theta1 + s.theta2) * Real.cos s.theta1
        + Real.sin (s.theta1 + s.theta2) * Real.sin s.theta1 := by
    rw [← Real.cos_sub]
    congr 1
    ring
  simp only [forward_kinematics]
  rw [hsub]
  linear_combination L1 ^ 2 * hc1 + L2 ^ 2 * hc2

/-- C13, as stated, fails on binary64 doubles: for the state `θ1 = 0`, `θ2 = 0` and the
default link lengths (`0.5` and the double nearest to `0.3`), with `cos 0 = 1` and
`sin 0 = 0`, the returned pose is `x = 7205759403792794 · 2⁻⁵³`, `y = 0`; this `x` is
above `0.8`, so `x² + y²` exceeds both `(L1 + L2)²` and `0.64`. -/
theorem forward_kinematics_binary64_outside_annulus :
    (Binary64.k_link1_b64 = 1 / 2 ∧ Binary64.k_link2_b64 = 5404319552844595 / 18014398509481984) ∧
    (∀ cos sin : ℚ → ℚ, cos 0 = 1 → sin 0 = 0 →
      Binary64.forward_kinematics_b64 cos sin ⟨0, 0, 0, 0⟩ Binary64.k_link1_b64 Binary64.k_link2_b64
        = ⟨7205759403792794 / 9007199254740992, 0⟩) ∧
    (Binary64.k_link1_b64 + Binary64.k_link2_b64) ^ 2
      < (7205759403792794 / 9007199254740992 : ℚ) ^ 2 + 0 ^ 2 ∧
    (0.64 : ℚ) < (7205759403792794 / 9007199254740992 : ℚ) ^ 2 + 0 ^ 2 := by
  have hk1 : Binary64.k_link1_b64 = 1 / 2 := by decide!
  have hk2 : Binary64.k_link2_b64 = 5404319552844595 / 18014398509481984 := by decide!
  refine ⟨⟨hk1, hk2⟩, ?_, ?_, ?_⟩
  · intro cos sin hc hs
    have h00 : Binary64.add 0 0 = 0 := by decide!
    have hx : Binary64.add (Binary64.mul Binary64.k_link1_b64 1) (Binary64.mul Binary64.k_link2_b64 1)
        = 7205759403792794 / 9007199254740992 := by decide!
    have hy : Binary64.add (Binary64.mul Binary64.k_link1_b64 0) (Binary64.mul Binary64.k_link2_b64 0)
        = 0 := by decide!
    simp only [Binary64.forward_kinematics_b64, h00, hc, hs, hx, hy]
  · rw [hk1, hk2]
    norm_num
  · norm_num

/-- C13, amended: in exact arithmetic (real cosine and sine, link lengths as real
numbers), for link lengths `L1 ≥ 0`, `L2 ≥ 0` the pose `(x, y)` of `forward_kinematics`
lies in the annulus `(L1 - L2)² ≤ x² + y² ≤ (L1 + L2)²`; indeed
`x² + y² = L1² + L2² + 2 L1 L2 cos θ2`, whatever `θ1` and the velocities are; with the
default link lengths `0.5` and `0.3` this reads `0.04 ≤ x² + y² ≤ 0.64`. -/
theorem forward_kinematics_annulus (s : JointState ℝ) (L1 L2 : ℝ)
    (hL1 : 0 ≤ L1) (hL2 : 0 ≤ L2) :
    ((L1 - L2) ^ 2 ≤ (forward_kinematics Real.cos Real.sin s L1 L2).x ^ 2
        + (forward_kinematics Real.cos Real.sin s L1 L2).y ^ 2 ∧
      (forward_kinematics Real.cos Real.sin s L1 L2).x ^ 2
        + (forward_kinematics Real.cos Real.sin s L1 L2).y ^ 2 ≤ (L1 + L2) ^ 2) ∧
    (∀ t1 v1 v2 : ℝ,
      (forward_kinematics Real.cos Real.sin ⟨t1, s.theta2, v1, v2⟩ L1 L2).x ^ 2
        + (forward_kinematics Real.cos Real.sin ⟨t1, s.theta2, v1, v2⟩ L1 L2).y ^ 2
      = L1 ^ 2 + L2 ^ 2 + 2 * L1 * L2 * Real.cos s.theta2) ∧
    ((0.04 : ℝ) ≤ (forward_kinematics_default Real.cos Real.sin s).x ^ 2
        + (forward_kinematics_default Real.cos Real.sin s).y ^ 2 ∧
      (forward_kinematics_default Real.cos Real.sin s).x ^ 2
        + (forward_kinematics_default Real.cos Real.sin s).y ^ 2 ≤ (0.64 : ℝ)) := by
  have hlo := Real.neg_one_le_cos s.theta2
  have hhi := Real.cos_le_one s.theta2
  have hprod : 0 ≤ L1 * L2 := mul_nonneg hL1 hL2
  refine ⟨⟨?_, ?_⟩, ?_, ⟨?_, ?_⟩⟩
  · rw [forward_kinematics_sq_dist]
    nlinarith
  · rw [forward_kinematics_sq_dist]
    nlinarith
  · intro t1 v1 v2
    exact forward_kinematics_sq_dist ⟨t1, s.theta2, v1, v2⟩ L1 L2
  · unfold forward_kinematics_default
    rw [forward_kinematics_sq_dist]
    simp only [k_link1, k_link2]
    norm_num
    linarith
  · unfold forward_kinematics_default
    rw [forward_kinematics_sq_dist]
    simp only [k_link1, k_link2]
    norm_num
    linarith

/-- Witness for C13: the default link lengths `0.5`, `0.3` and the state with
`θ1 = 0`, `θ2 = 0`. -/
theorem forward_kinematics_annulus_witness :
    (0 : ℝ) ≤ 1 / 2 ∧ (0 : ℝ) ≤ 3 / 10 ∧
    ((1 / 2 - 3 / 10 : ℝ) ^ 2
        ≤ (forward_kinematics Real.cos Real.sin ⟨0, 0, 0, 0⟩ (1 / 2) (3 / 10)).x ^ 2
          + (forward_kinematics Real.cos Real.sin ⟨0, 0, 0, 0⟩ (1 / 2) (3 / 10)).y ^ 2 ∧
      (forward_kinematics Real.cos Real.sin ⟨0, 0, 0, 0⟩ (1 / 2) (3 / 10)).x ^ 2
          + (forward_kinematics Real.cos Real.sin ⟨0, 0, 0, 0⟩ (1 / 2) (3 / 10)).y ^ 2
        ≤ (1 / 2 + 3 / 10 : ℝ) ^ 2) :=
  ⟨by norm_num, by norm_num,
    (forward_kinematics_annulus ⟨0, 0, 0, 0⟩ (1 / 2) (3 / 10) (by norm_num) (by norm_num)).1⟩

end ForwardKinematics

end RobotArm

namespace SensorSystem

/-! ## Obstacle count of the LIDAR loop -/

section LidarCount

variable {α : Type} [LinearOrderedField α]

theorem foldl_lidar_step_obstacles (thr minv : α) (readings : List α) (st : LidarState α) :
    (readings.foldl (lidar_step thr minv) st).obstacles_detected
      = st.obstacles_detected + (readings.countP fun r => decide (r ≤ thr) : ℕ) := by
  induction readings generalizing st with
  | nil => simp
  | cons r rest ih =>
    rw [List.foldl_cons, ih]
    by_cases h : r ≤ thr
    · rw [List.countP_cons_of_pos _ _ (by simpa using h)]
      have hst : (lidar_step thr minv st r).obstacles_detected = st.obstacles_detected + 1 := by
        simp only [lidar_step, if_pos h]
        split <;> rfl
      rw [hst]
      push_cast
      ring
    · rw [List.countP_cons_of_neg _ _ (by simpa using h)]
      have hst : (lidar_step thr minv st r).obstacles_detected = st.obstacles_detected := by
        simp only [lidar_step, if_neg h]
        split <;> rfl
      rw [hst]

/-- C11, evaluated on the code: the obstacle count of a timestamp is the number of
readings `r` with `r ≤ obstacle_threshold`, so a reading equal to the threshold is
counted.  For the three readings `2, 1, 3` and threshold `2` the loop counts `2`
obstacles, while only one reading is strictly below the threshold; for eight readings
all equal to the threshold it counts `8`, while none is strictly below. -/
theorem lidar_obstacles_count_threshold_reading :
    (∀ (thr minv : ℚ) (readings : List ℚ),
      (process_lidar thr minv readings).obstacles_detected
        = (readings.countP fun r => decide (r ≤ thr) : ℕ)) ∧
    ((process_lidar (2 : ℚ) (1 / 10) [2, 1, 3]).obstacles_detected = 2 ∧
      ([2, 1, 3] : List ℚ).countP (fun r => decide (r < 2)) = 1) ∧
    (∀ thr minv : ℚ,
      (process_lidar thr minv (List.replicate 8 thr)).obstacles_detected = 8 ∧
      (List.replicate 8 thr).countP (fun r => decide (r < thr)) = 0) := by
  have hcount : ∀ (thr minv : ℚ) (readings : List ℚ),
      (process_lidar thr minv readings).obstacles_detected
        = (readings.countP fun r => decide (r ≤ thr) : ℕ) := by
    intro thr minv readings
    unfold process_lidar
    rw [foldl_lidar_step_obstacles, zero_add]
  refine ⟨hcount, ⟨?_, ?_⟩, ?_⟩
  · rw [hcount]
    norm_num [List.countP_cons]
  · norm_num [List.countP_cons]
  · intro thr minv
    constructor
    · rw [hcount]
      simp [List.replicate, List.countP_cons]
    · simp [List.replicate, List.countP_cons]

end LidarCount

end SensorSystem
